import Mathlib

/-!
Verification development for the Car-Check-Service repository.

The repository ships the frontend (auth helpers in `lib/auth.ts`, the `Home`
page, the booking page, the admin dashboard, login/register forms) together
with dockerfiles for three Python backend services whose source is not part
of the repository.  Frontend functions are embedded directly from the
TypeScript source; the backend Reservation & Availability Engine and the
Analytics Aggregation Engine are modelled from the specification, and every
such definition carries a doc comment starting with `Modelled from the spec:`.

Conventions: `localStorage` is an explicit `Option String` value, times of
day are minutes after midnight (`Nat`), calendar days are day numbers
(`Nat`), JSON numbers are integers (`Int`), and records such as HTTP headers
or request bodies are association lists `List (String × String)`.
-/

namespace CarCheck

/-! ### Auth token store (`lib/auth.ts`) -/

/-- Function `setAuthToken` from `lib/auth.ts`: stores the token in localStorage.
The browser environment is assumed (`typeof window !== "undefined"`). -/
def setAuthToken (_store : Option String) (token : String) : Option String :=
  some token

/-- Function `getAuthToken` from `lib/auth.ts`: reads the token from localStorage. -/
def getAuthToken (store : Option String) : Option String :=
  store

/-- Function `removeAuthToken` from `lib/auth.ts`: deletes the token. -/
def removeAuthToken (_store : Option String) : Option String :=
  none

/-- Function `getAuthHeader` from `lib/auth.ts`: an empty record when no token is
stored, otherwise the single-entry record with the Bearer token. -/
def getAuthHeader (store : Option String) : List (String × String) :=
  match getAuthToken store with
  | none => []
  | some token => [(("Authorization"), ("Bearer ") ++ token)]

/-! ### Booking page boundary (`booking-page.tsx`) -/

/-- The `Car` interface of `booking-page.tsx`. -/
structure Car where
  car_id : Nat
  model : String
  license_plate : String
  deriving DecidableEq

/-- The `AvailableSlot` interface of `booking-page.tsx`: times as the
strings the backend returned. -/
structure AvailableSlot where
  start_time : String
  end_time : String
  deriving DecidableEq

/-- The JSON body built by `handleBooking` in `booking-page.tsx`:
`JSON.stringify({start_time, day, car_model, car_license_plate})`,
modelled as the association list of its fields in source order. -/
def bookingRequestBody (selectedSlot : AvailableSlot) (selectedDate : String)
    (selectedCar : Car) : List (String × String) :=
  [(("start_time"), selectedSlot.start_time),
   (("day"), selectedDate),
   (("car_model"), selectedCar.model),
   (("car_license_plate"), selectedCar.license_plate)]

/-- The headers built by `handleBooking`:
`{"Content-Type": "application/json", ...getAuthHeader()}`. -/
def bookingRequestHeaders (store : Option String) : List (String × String) :=
  (("Content-Type"), ("application/json")) :: getAuthHeader store

/-- Constant `minDate` in `BookingPage`: `new Date().toISOString().split("T")[0]`,
i.e. the ISO date string of today. -/
def minDate (todayISO : String) : String :=
  todayISO

/-- HTML semantics of `<Input type="date" min={minDate}>`: a date value is
selectable exactly when it is not below the `min` attribute.  ISO date
strings compare correctly under lexicographic string order. -/
def dateSelectable (minAttr selectedDate : String) : Bool :=
  decide (minAttr ≤ selectedDate)

/-! ### Slot Generator (backend, modelled from the spec) -/

/-- Modelled from the spec: the backend Slot Generator
`generate(car_operating_window, slot_duration, day)`.  The operating window
is `[openT, closeT)` in minutes, `dur` is the slot duration; the target day
does not influence the tiling itself.  Slots tile the window contiguously
and a trailing partial interval is dropped when `(closeT - openT)` is not an
exact multiple of `dur`. -/
def generate (openT closeT dur : Nat) : List (Nat × Nat) :=
  (List.range ((closeT - openT) / dur)).map
    (fun i => (openT + dur * i, openT + dur * i + dur))

/-! ### Reservation Ledger and Committer (backend, modelled from the spec) -/

/-- Modelled from the spec: the `Reservation` entity of the data model
(§3).  Times are minutes, `day` is a day number. -/
structure Reservation where
  reservation_id : Nat
  car_id : Nat
  user_id : Nat
  day : Nat
  start_time : Nat
  end_time : Nat
  created_at : Nat
  deriving DecidableEq

/-- The overlap test of the spec for half-open intervals: `[a,b)` and `[c,d)`
overlap iff `a < d && c < b`. -/
def intervalsOverlap (s1 s2 : Nat × Nat) : Bool :=
  decide (s1.1 < s2.2) && decide (s2.1 < s1.2)

/-- Modelled from the spec: the Ledger query by `(car_id, day)`. -/
def reservationsFor (ledger : List Reservation) (carId day : Nat) :
    List Reservation :=
  ledger.filter (fun r => decide (r.car_id = carId) && decide (r.day = day))

/-- Slot configuration of a car: operating window and slot duration. -/
structure SlotConfig where
  openT : Nat
  closeT : Nat
  dur : Nat
  deriving DecidableEq

/-- Modelled from the spec: the Availability Resolver
`availableSlots(car_id, day)` (§4.2) — set-subtract: a candidate slot is
available iff it does not overlap any committed reservation interval for
that car and day. -/
def availableSlots (cfg : SlotConfig) (ledger : List Reservation)
    (carId day : Nat) : List (Nat × Nat) :=
  (generate cfg.openT cfg.closeT cfg.dur).filter
    (fun s => !((reservationsFor ledger carId day).any
      (fun r => intervalsOverlap s (r.start_time, r.end_time))))

/-- Outcome of the Reservation Committer (§4.3). -/
inductive CommitResult where
  | ok (r : Reservation)
  | conflictError
  | validationError
  deriving DecidableEq

/-- A commit request: the caller-supplied inputs together with the fresh
identity and timestamp the Ledger assigns on success. -/
structure CommitReq where
  car_id : Nat
  user_id : Nat
  day : Nat
  start_time : Nat
  nextId : Nat
  createdAt : Nat
  deriving DecidableEq

/-- Modelled from the spec: the Reservation Committer
`commit(car_id, user_id, day, start_time)` (§4.3).  It derives
`end_time = start_time + slot_duration`, rejects a day strictly before the
current date and a slot not aligned with a Slot Generator boundary
(ValidationError), atomically re-checks for overlap against the Ledger and
returns ConflictError on conflict, otherwise appends a fresh immutable
reservation. -/
def commit (cfg : SlotConfig) (today : Nat) (ledger : List Reservation)
    (req : CommitReq) : CommitResult :=
  if req.day < today then
    CommitResult.validationError
  else if (req.start_time, req.start_time + cfg.dur) ∉
      generate cfg.openT cfg.closeT cfg.dur then
    CommitResult.validationError
  else if (reservationsFor ledger req.car_id req.day).any
      (fun r => intervalsOverlap (req.start_time, req.start_time + cfg.dur)
        (r.start_time, r.end_time)) then
    CommitResult.conflictError
  else
    CommitResult.ok
      ⟨req.nextId, req.car_id, req.user_id, req.day, req.start_time,
       req.start_time + cfg.dur, req.createdAt⟩

/-- Modelled from the spec: the Ledger state after one commit attempt — the
append-oriented store grows by the new reservation on success and is
unchanged on ValidationError/ConflictError. -/
def applyCommit (cfg : SlotConfig) (today : Nat) (ledger : List Reservation)
    (req : CommitReq) : List Reservation :=
  match commit cfg today ledger req with
  | CommitResult.ok r => ledger ++ [r]
  | CommitResult.conflictError => ledger
  | CommitResult.validationError => ledger

/-- A sequence of commit attempts applied in order.  The spec serializes
concurrent commit attempts for a `(car_id, day)` key (§5: the check-then-
append is a single atomic unit), so any concurrent execution is equivalent
to some such sequence. -/
def runCommits (cfg : SlotConfig) (today : Nat) (ledger : List Reservation)
    (reqs : List CommitReq) : List Reservation :=
  reqs.foldl (fun l req => applyCommit cfg today l req) ledger

/-- Two ledger entries are compatible when, if they are for the same car
and day, their half-open intervals do not overlap. -/
def Compat (r1 r2 : Reservation) : Prop :=
  r1.car_id = r2.car_id → r1.day = r2.day →
    ¬(r1.start_time < r2.end_time ∧ r2.start_time < r1.end_time)

/-- The §3 invariant: for a fixed car and day no two committed reservations
in the Ledger have overlapping `[start_time, end_time)` intervals. -/
def NoOverlap (ledger : List Reservation) : Prop :=
  ledger.Pairwise Compat

/-! ### Analytics Aggregation Engine (backend, modelled from the spec) -/

/-- Modelled from the spec: `dailyRevenue(windowDays, pricePerBooking)`
(§4.5) — one entry per calendar day of the trailing window, ordered
chronologically, each with its reservation count and
`count * pricePerBooking`; days with zero reservations still appear with
revenue 0.  The trailing window of width `w` ending `today` is the days
`today + 1 - w, …, today`. -/
def dailyRevenue (ledger : List Reservation) (today w : Nat) (price : ℚ) :
    List (Nat × Nat × ℚ) :=
  (List.range w).map (fun i =>
    let d := today + 1 + i - w
    let c := (ledger.filter (fun r => decide (r.day = d))).length
    (d, c, (c : ℚ) * price))

/-- Outcome of `bookingsByDateRange`. -/
inductive RangeResult where
  | validationError
  | ok (rs : List Reservation)
  deriving DecidableEq

/-- Modelled from the spec: `bookingsByDateRange(start, end)` (§4.5) — all
reservations with `day` in `[start, end]` inclusive; ValidationError if
`end < start`. -/
def bookingsByDateRange (ledger : List Reservation) (startD endD : Nat) :
    RangeResult :=
  if endD < startD then
    RangeResult.validationError
  else
    RangeResult.ok
      (ledger.filter (fun r => decide (startD ≤ r.day) && decide (r.day ≤ endD)))

/-! ### JSON values and the pieces of `decodeToken` (`lib/auth.ts`)

`decodeToken` splits the JWT, maps base64url to base64, decodes with
`atob`, percent-encodes the bytes and applies `decodeURIComponent` (net
effect: UTF-8 decoding), then `JSON.parse`.  Each built-in is modelled
below; JSON numbers are modelled as integers (JWT time stamps are), and a
number with a fractional part or exponent fails the parser of this model. -/

/-- JSON values as produced by `JSON.parse`. -/
inductive Json where
  | null
  | bool (b : Bool)
  | num (n : Int)
  | str (s : String)
  | arr (elems : List Json)
  | obj (fields : List (String × Json))

/-- Value of a base64 alphabet character, `none` for characters outside
the alphabet. -/
def b64Val (c : Char) : Option Nat :=
  if ('A' ≤ c ∧ c ≤ 'Z') then some (c.toNat - 65)
  else if ('a' ≤ c ∧ c ≤ 'z') then some (c.toNat - 97 + 26)
  else if ('0' ≤ c ∧ c ≤ '9') then some (c.toNat - 48 + 52)
  else if c = '+' then some 62
  else if c = '/' then some 63
  else none

/-- Decode a padding-free sequence of base64 values into bytes: groups of
four values give three bytes, a final group of two or three gives one or
two bytes (leftover bits discarded, as in forgiving-base64), and a final
group of one is an error. -/
def b64Quantum : List Nat → Option (List Nat)
  | [] => some []
  | [_] => none
  | [a, b] => some [a * 4 + b / 16]
  | [a, b, c] => some [a * 4 + b / 16, (b % 16) * 16 + c / 4]
  | a :: b :: c :: d :: rest =>
    match b64Quantum rest with
    | none => none
    | some bytes =>
      some ((a * 4 + b / 16) :: ((b % 16) * 16 + c / 4) ::
            ((c % 4) * 64 + d) :: bytes)

/-- Remove up to two trailing `=` padding characters. -/
def stripBase64Pad (cs : List Char) : List Char :=
  match cs.reverse with
  | '=' :: '=' :: rest => rest.reverse
  | '=' :: rest => rest.reverse
  | _ => cs

/-- Builtin `atob`: base64-decode a character sequence to bytes; `none` on a
character outside the alphabet or a leftover group of one. -/
def atobChars (cs : List Char) : Option (List Nat) :=
  match (stripBase64Pad cs).mapM b64Val with
  | none => none
  | some vals => b64Quantum vals

/-- The base64url-to-base64 character substitution performed by the two
global `replace` calls: every dash becomes a plus, every underscore a
slash. -/
def base64UrlChar (c : Char) : Char :=
  if c = '-' then '+' else if c = '_' then '/' else c

/-- A candidate code point as a `Char`, `none` when it is not a valid
Unicode scalar value. -/
def mkChar (n : Nat) : Option Char :=
  if n.isValidChar then some (Char.ofNat n) else none

/-- UTF-8 decoding of a byte sequence — the net effect of percent-encoding
every byte and applying `decodeURIComponent`; `none` (a `URIError` in JS)
on a malformed sequence. -/
def utf8Decode (fuel : Nat) (bs : List Nat) : Option (List Char) :=
  match fuel, bs with
  | _, [] => some []
  | 0, _ => none
  | fuel + 1, b :: rest =>
    if b < 128 then
      match mkChar b, utf8Decode fuel rest with
      | some ch, some cs => some (ch :: cs)
      | _, _ => none
    else if 192 ≤ b ∧ b < 224 then
      match rest with
      | c1 :: rest2 =>
        if 128 ≤ c1 ∧ c1 < 192 then
          match mkChar ((b - 192) * 64 + (c1 - 128)), utf8Decode fuel rest2 with
          | some ch, some cs => some (ch :: cs)
          | _, _ => none
        else none
      | _ => none
    else if 224 ≤ b ∧ b < 240 then
      match rest with
      | c1 :: c2 :: rest2 =>
        if (128 ≤ c1 ∧ c1 < 192) ∧ (128 ≤ c2 ∧ c2 < 192) then
          match mkChar ((b - 224) * 4096 + (c1 - 128) * 64 + (c2 - 128)),
              utf8Decode fuel rest2 with
          | some ch, some cs => some (ch :: cs)
          | _, _ => none
        else none
      | _ => none
    else if 240 ≤ b ∧ b < 248 then
      match rest with
      | c1 :: c2 :: c3 :: rest2 =>
        if (128 ≤ c1 ∧ c1 < 192) ∧ (128 ≤ c2 ∧ c2 < 192) ∧
            (128 ≤ c3 ∧ c3 < 192) then
          match mkChar ((b - 240) * 262144 + (c1 - 128) * 4096 +
                (c2 - 128) * 64 + (c3 - 128)), utf8Decode fuel rest2 with
          | some ch, some cs => some (ch :: cs)
          | _, _ => none
        else none
      | _ => none
    else none

/-- JSON whitespace skipping. -/
def skipWs : List Char → List Char
  | c :: rest =>
    if c = ' ' ∨ c = '\t' ∨ c = '\n' ∨ c = '\r' then skipWs rest else c :: rest
  | [] => []

/-- Value of a hexadecimal digit. -/
def hexVal (c : Char) : Option Nat :=
  if ('0' ≤ c ∧ c ≤ '9') then some (c.toNat - 48)
  else if ('a' ≤ c ∧ c ≤ 'f') then some (c.toNat - 87)
  else if ('A' ≤ c ∧ c ≤ 'F') then some (c.toNat - 55)
  else none

/-- Body of a JSON string literal after the opening quote: returns the
content and the remainder after the closing quote. -/
def parseStringBody (fuel : Nat) (cs : List Char) :
    Option (List Char × List Char) :=
  match fuel, cs with
  | 0, _ => none
  | _, [] => none
  | fuel + 1, c :: rest =>
    if c = '\"' then some ([], rest)
    else if c = '\\' then
      match rest with
      | [] => none
      | e :: rest2 =>
        let esc : Option (Char × List Char) :=
          if e = '\"' then some ('\"', rest2)
          else if e = '\\' then some ('\\', rest2)
          else if e = '/' then some ('/', rest2)
          else if e = 'b' then some ('\x08', rest2)
          else if e = 'f' then some ('\x0C', rest2)
          else if e = 'n' then some ('\n', rest2)
          else if e = 'r' then some ('\r', rest2)
          else if e = 't' then some ('\t', rest2)
          else if e = 'u' then
            match rest2 with
            | h1 :: h2 :: h3 :: h4 :: rest3 =>
              match hexVal h1, hexVal h2, hexVal h3, hexVal h4 with
              | some v1, some v2, some v3, some v4 =>
                match mkChar (((v1 * 16 + v2) * 16 + v3) * 16 + v4) with
                | some ch => some (ch, rest3)
                | none => none
              | _, _, _, _ => none
            | _ => none
          else none
        match esc with
        | none => none
        | some (ch, rest3) =>
          match parseStringBody fuel rest3 with
          | none => none
          | some (content, rest4) => some (ch :: content, rest4)
    else
      match parseStringBody fuel rest with
      | none => none
      | some (content, rest2) => some (c :: content, rest2)

/-- Digits of an unsigned decimal literal. -/
def digitsToNat (ds : List Char) : Nat :=
  ds.foldl (fun acc c => acc * 10 + (c.toNat - 48)) 0

/-- Intermediate results of the JSON parser: a value, a list of array
elements, or a list of object members, each with the unconsumed
remainder. -/
inductive ParseOut where
  | val (v : Json) (rest : List Char)
  | elems (vs : List Json) (rest : List Char)
  | members (kvs : List (String × Json)) (rest : List Char)

/-- Parser modes: one JSON value; the elements of an array after the
opening bracket; the members of an object after the opening brace. -/
inductive ParseMode where
  | val
  | elems
  | members

/-- Fuel-indexed recursive-descent JSON parser.  The three mutually
recursive productions are folded into one function (structural on the
fuel) so that it evaluates by kernel reduction. -/
def parseJ (fuel : Nat) (mode : ParseMode) (cs : List Char) :
    Option ParseOut :=
  match fuel with
  | 0 => none
  | fuel + 1 =>
    match mode with
    | ParseMode.val =>
      match skipWs cs with
      | [] => none
      | c :: rest =>
        if c = '\"' then
          match parseStringBody (rest.length + 1) rest with
          | none => none
          | some (content, rest2) =>
            some (ParseOut.val (Json.str (String.mk content)) rest2)
        else if c = 't' then
          match rest with
          | 'r' :: 'u' :: 'e' :: rest2 => some (ParseOut.val (Json.bool true) rest2)
          | _ => none
        else if c = 'f' then
          match rest with
          | 'a' :: 'l' :: 's' :: 'e' :: rest2 =>
            some (ParseOut.val (Json.bool false) rest2)
          | _ => none
        else if c = 'n' then
          match rest with
          | 'u' :: 'l' :: 'l' :: rest2 => some (ParseOut.val Json.null rest2)
          | _ => none
        else if c = '-' then
          match rest.span Char.isDigit with
          | ([], _) => none
          | (ds, rest2) =>
            some (ParseOut.val (Json.num (-(digitsToNat ds : Int))) rest2)
        else if c.isDigit then
          match (c :: rest).span Char.isDigit with
          | (ds, rest2) =>
            some (ParseOut.val (Json.num (digitsToNat ds : Int)) rest2)
        else if c = '\x5b' then
          match skipWs rest with
          | '\x5d' :: rest2 => some (ParseOut.val (Json.arr []) rest2)
          | _ =>
            match parseJ fuel ParseMode.elems rest with
            | some (ParseOut.elems vs rest2) =>
              some (ParseOut.val (Json.arr vs) rest2)
            | _ => none
        else if c = '\x7b' then
          match skipWs rest with
          | '\x7d' :: rest2 => some (ParseOut.val (Json.obj []) rest2)
          | _ =>
            match parseJ fuel ParseMode.members rest with
            | some (ParseOut.members kvs rest2) =>
              some (ParseOut.val (Json.obj kvs) rest2)
            | _ => none
        else none
    | ParseMode.elems =>
      match parseJ fuel ParseMode.val cs with
      | some (ParseOut.val v rest) =>
        (match skipWs rest with
         | ',' :: rest2 =>
           match parseJ fuel ParseMode.elems rest2 with
           | some (ParseOut.elems vs rest3) =>
             some (ParseOut.elems (v :: vs) rest3)
           | _ => none
         | '\x5d' :: rest2 => some (ParseOut.elems [v] rest2)
         | _ => none)
      | _ => none
    | ParseMode.members =>
      match skipWs cs with
      | '\"' :: rest =>
        (match parseStringBody (rest.length + 1) rest with
         | none => none
         | some (key, rest2) =>
           match skipWs rest2 with
           | ':' :: rest3 =>
             (match parseJ fuel ParseMode.val rest3 with
              | some (ParseOut.val v rest4) =>
                (match skipWs rest4 with
                 | ',' :: rest5 =>
                   match parseJ fuel ParseMode.members rest5 with
                   | some (ParseOut.members kvs rest6) =>
                     some (ParseOut.members ((String.mk key, v) :: kvs) rest6)
                   | _ => none
                 | '\x7d' :: rest5 =>
                   some (ParseOut.members [(String.mk key, v)] rest5)
                 | _ => none)
              | _ => none)
           | _ => none)
      | _ => none

/-- Builtin `JSON.parse`: parse one JSON value and require that only whitespace
remains. -/
def jsonParse (cs : List Char) : Option Json :=
  match parseJ (cs.length + 2) ParseMode.val cs with
  | some (ParseOut.val v rest) =>
    (match skipWs rest with
     | [] => some v
     | _ => none)
  | _ => none

/-- JS `token.split(".")` over the underlying character list. -/
def splitOnDot : List Char → List (List Char)
  | [] => [[]]
  | c :: rest =>
    if c = '.' then [] :: splitOnDot rest
    else
      match splitOnDot rest with
      | [] => [[c]]
      | p :: ps => (c :: p) :: ps

/-- The try-block of `decodeToken` in `lib/auth.ts`, with each JS
exception path mapped to `Except.error` carrying the exception name:
`token.split(".")[1]` being `undefined` makes the `replace` call throw a
TypeError; `atob` throws InvalidCharacterError; `decodeURIComponent`
throws URIError; `JSON.parse` throws SyntaxError. -/
def decodeTokenBody (token : String) : Except String Json :=
  match splitOnDot token.data with
  | _ :: base64Url :: _ =>
    let base64 := base64Url.map base64UrlChar
    match atobChars base64 with
    | none => Except.error ("InvalidCharacterError")
    | some bytes =>
      match utf8Decode bytes.length bytes with
      | none => Except.error ("URIError")
      | some chars =>
        match jsonParse chars with
        | none => Except.error ("SyntaxError")
        | some j => Except.ok j
  | _ => Except.error ("TypeError")

/-- Function `decodeToken` from `lib/auth.ts`: the value of the try-block, with the
catch-clause turning every thrown exception into `null`. -/
def decodeToken (token : String) : Option Json :=
  (decodeTokenBody token).toOption

/-- JS property access `decoded[key]` on a parsed JSON value: `none`
models `undefined`. -/
def jsonField (j : Json) (key : String) : Option Json :=
  match j with
  | Json.obj fields => (fields.find? (fun kv => decide (kv.1 = key))).map
      (fun kv => kv.2)
  | _ => none

/-- JS truthiness of a JSON value (with `none`, i.e. `undefined`, handled
at the call sites). -/
def jsTruthy : Json → Bool
  | Json.null => false
  | Json.bool b => b
  | Json.num n => decide (n ≠ 0)
  | Json.str s => decide (s ≠ "")
  | Json.arr _ => true
  | Json.obj _ => true

/-- Comparison `decoded.exp < currentTime` for a numeric `exp`; the JS coercion of a
non-numeric `exp` is modelled as `false`. -/
def jsNumLt (v : Json) (t : Int) : Bool :=
  match v with
  | Json.num n => decide (n < t)
  | _ => false

/-- Function `isTokenExpired` from `lib/auth.ts`: expired when the token fails to
decode or has a falsy `exp`, otherwise `decoded.exp < currentTime`. -/
def isTokenExpired (currentTime : Int) (token : String) : Bool :=
  match decodeToken token with
  | none => true
  | some decoded =>
    match jsonField decoded ("exp") with
    | none => true
    | some v => if jsTruthy v then jsNumLt v currentTime else true

/-! ### The `Home` boundary component (`app/page.tsx`) -/

/-- The check `decodeToken(token)?.is_admin === true` performed in the
mount effect of `Home` and in `handleLoginSuccess`. -/
def decodedIsAdmin (token : String) : Bool :=
  match decodeToken token with
  | none => false
  | some decoded =>
    match jsonField decoded ("is_admin") with
    | some (Json.bool true) => true
    | _ => false

/-- Values of `currentView` in `Home`. -/
inductive View where
  | dashboard
  | booking
  | admin
  deriving DecidableEq

/-- What `Home` renders once loading has finished. -/
inductive Rendered where
  | loginOrRegister
  | dashboardView
  | bookingView
  | adminView
  deriving DecidableEq

/-- The state of `Home` (its `useState` hooks) together with the
localStorage token. -/
structure HomeState where
  isLoggedIn : Bool
  isRegistering : Bool
  currentView : View
  isAdmin : Bool
  token : Option String
  deriving DecidableEq

/-- The render logic of `Home` after loading: `BookingPage` when the view
is booking, `AdminDashboard` only when the view is admin AND `isAdmin`,
otherwise `Dashboard`; the login/register forms when not logged in.
`AdminDashboard` issues the analytics queries on mount, so they are issued
exactly when this returns `adminView`. -/
def render (s : HomeState) : Rendered :=
  if s.isLoggedIn then
    match s.currentView with
    | View.booking => Rendered.bookingView
    | View.admin =>
      if s.isAdmin then Rendered.adminView else Rendered.dashboardView
    | View.dashboard => Rendered.dashboardView
  else Rendered.loginOrRegister

/-- State of `Home` before the mount effect: all hooks at their initial
values, localStorage holding whatever persisted (`tok0`). -/
def initState (tok0 : Option String) : HomeState :=
  ⟨false, false, View.dashboard, false, tok0⟩

/-- Mount effect of `Home`: if a (truthy) token is stored, log in and set
`isAdmin` from the decoded token. -/
def loadEffect (s : HomeState) : HomeState :=
  match s.token with
  | some t =>
    if t = "" then s
    else { s with isLoggedIn := true, isAdmin := decodedIsAdmin t }
  | none => s

/-- The event transitions of `Home`:
* `login t` — `LoginForm` stores the token then `handleLoginSuccess` runs
  (only reachable from the logged-out view);
* `register t` — `RegisterForm` stores the token then
  `handleRegisterSuccess` runs (does not touch `isAdmin`);
* `logout` — `handleLogout` clears everything;
* `navBooking` / `navAdmin` — buttons available on the `Dashboard` view,
  the admin button only rendered when `isAdmin`;
* `backToDashboard` — the back buttons. -/
inductive Step : HomeState → HomeState → Prop where
  | login (s : HomeState) (t : String) (h : s.isLoggedIn = false) :
      Step s ({ s with
                token := some t
                isLoggedIn := true
                isAdmin := if t = "" then s.isAdmin else decodedIsAdmin t })
  | register (s : HomeState) (t : String) (h : s.isLoggedIn = false) :
      Step s ({ s with
                token := some t
                isLoggedIn := true
                isRegistering := false })
  | logout (s : HomeState) :
      Step s ⟨false, false, View.dashboard, false, none⟩
  | navBooking (s : HomeState) (h : render s = Rendered.dashboardView) :
      Step s ({ s with currentView := View.booking })
  | navAdmin (s : HomeState) (h : render s = Rendered.dashboardView)
      (ha : s.isAdmin = true) :
      Step s ({ s with currentView := View.admin })
  | backToDashboard (s : HomeState) :
      Step s ({ s with currentView := View.dashboard })

/-- States of `Home` reachable from a fresh mount over localStorage
contents `tok0`. -/
def Reachable (tok0 : Option String) (s : HomeState) : Prop :=
  Relation.ReflTransGen Step (loadEffect (initState tok0)) s

/-! ## Theorems -/

/-- Membership in the Ledger query by `(car_id, day)`. -/
theorem mem_reservationsFor (ledger : List Reservation) (carId day : Nat)
    (r : Reservation) :
    r ∈ reservationsFor ledger carId day ↔
      r ∈ ledger ∧ r.car_id = carId ∧ r.day = day := by
  simp [reservationsFor]

/-- C10: the auth-token store round-trips — after `setAuthToken t`,
`getAuthToken` returns `t` and `getAuthHeader` is the single-entry Bearer
record; after `removeAuthToken`, `getAuthToken` returns nothing and
`getAuthHeader` is the empty record. -/
theorem auth_token_store_roundtrip (store : Option String) (t : String) :
    getAuthToken (setAuthToken store t) = some t ∧
    getAuthHeader (setAuthToken store t) =
      [(("Authorization"), ("Bearer ") ++ t)] ∧
    getAuthToken (removeAuthToken store) = none ∧
    getAuthHeader (removeAuthToken store) = [] :=
  ⟨rfl, rfl, rfl, rfl⟩

/-- C3 (counterexample): the reserve request built by `handleBooking` for
a concrete car, date and slot does not carry a `car_id` field — its body
fields are `start_time`, `day`, `car_model`, `car_license_plate`. -/
theorem reserve_request_no_car_id :
    ("car_id") ∉ (bookingRequestBody ⟨("09:00"), ("11:00")⟩ ("2026-10-20")
      ⟨1, ("Model S"), ("AB-123-CD")⟩).map Prod.fst ∧
    (bookingRequestBody ⟨("09:00"), ("11:00")⟩ ("2026-10-20")
      ⟨1, ("Model S"), ("AB-123-CD")⟩).map Prod.fst ≠
      [("car_id"), ("day"), ("start_time")] := by
  constructor
  · decide
  · decide

/-- C3 (amended): every reserve request issued by `handleBooking` carries
exactly the body fields `start_time`, `day`, `car_model` and
`car_license_plate` (the car is identified by model and license plate, not
by `car_id`), `user_id` is not in the body, and the user comes from the
authenticated context: the headers carry the stored Bearer token. -/
theorem reserve_request_fields (slot : AvailableSlot) (d : String)
    (car : Car) (t : String) :
    (bookingRequestBody slot d car).map Prod.fst =
      [("start_time"), ("day"), ("car_model"), ("car_license_plate")] ∧
    ("user_id") ∉ (bookingRequestBody slot d car).map Prod.fst ∧
    bookingRequestHeaders (some t) =
      [(("Content-Type"), ("application/json")),
       (("Authorization"), ("Bearer ") ++ t)] := by
  refine ⟨rfl, ?_, rfl⟩
  intro h
  simp [bookingRequestBody] at h

/-- C3 witness: the amended field list at a concrete request. -/
theorem reserve_request_fields_witness :
    (bookingRequestBody ⟨("09:00"), ("11:00")⟩ ("2026-10-20")
      ⟨1, ("Model S"), ("AB-123-CD")⟩).map Prod.fst =
      [("start_time"), ("day"), ("car_model"), ("car_license_plate")] ∧
    bookingRequestHeaders (some ("tok")) =
      [(("Content-Type"), ("application/json")),
       (("Authorization"), ("Bearer ") ++ ("tok"))] :=
  ⟨(reserve_request_fields ⟨("09:00"), ("11:00")⟩ ("2026-10-20")
      ⟨1, ("Model S"), ("AB-123-CD")⟩ ("tok")).1,
   (reserve_request_fields ⟨("09:00"), ("11:00")⟩ ("2026-10-20")
      ⟨1, ("Model S"), ("AB-123-CD")⟩ ("tok")).2.2⟩

/-- C9: `decodeToken` never propagates an exception — every thrown
exception in its try-block becomes `null` — and `isTokenExpired` returns
`true` whenever the token fails to decode or its payload has no `exp`
field. -/
theorem decodeToken_total_and_expiry (token : String) (now : Int) :
    (∀ e, decodeTokenBody token = Except.error e → decodeToken token = none) ∧
    (decodeToken token = none → isTokenExpired now token = true) ∧
    (∀ p, decodeToken token = some p → jsonField p ("exp") = none →
      isTokenExpired now token = true) := by
  refine ⟨?_, ?_, ?_⟩
  · intro e he
    unfold decodeToken
    rw [he]
    rfl
  · intro h
    unfold isTokenExpired
    rw [h]
  · intro p hp hexp
    unfold isTokenExpired
    rw [hp]
    simp [hexp]

/-- C9 witness at a malformed token. -/
theorem decodeToken_total_and_expiry_witness :
    decodeToken ("garbage") = none ∧ isTokenExpired 0 ("garbage") = true := by
  have h1 : decodeToken ("garbage") = none :=
    (decodeToken_total_and_expiry ("garbage") 0).1 ("TypeError") rfl
  exact ⟨h1, (decodeToken_total_and_expiry ("garbage") 0).2.1 h1⟩

/-- C4: a reservation request for a day strictly before the current date
is rejected by the committer with a ValidationError, and the booking page
prevents selecting such a day: the `min` of the date input is today, so a date
below today is not selectable. -/
theorem commit_rejects_past_day (cfg : SlotConfig) (today : Nat)
    (ledger : List Reservation) (req : CommitReq) (t d : String)
    (hpast : req.day < today) (hd : d < t) :
    commit cfg today ledger req = CommitResult.validationError ∧
    dateSelectable (minDate t) d = false := by
  constructor
  · unfold commit
    simp [hpast]
  · unfold dateSelectable minDate
    exact decide_eq_false (not_le_of_lt hd)

/-- C4 witness: a concrete past-day request and a concrete past date. -/
theorem commit_rejects_past_day_witness :
    commit ⟨540, 1020, 120⟩ 10 [] ⟨1, 1, 9, 540, 1, 0⟩ =
      CommitResult.validationError ∧
    dateSelectable (minDate ("2026-10-11")) ("2026-10-10") = false :=
  commit_rejects_past_day ⟨540, 1020, 120⟩ 10 [] ⟨1, 1, 9, 540, 1, 0⟩
    ("2026-10-11") ("2026-10-10") (by decide)
    (by rw [String.lt_iff_toList_lt]; decide)

/-- C7: `bookingsByDateRange` fails with ValidationError exactly when
`end < start`, and otherwise returns exactly the reservations whose day
lies in the inclusive interval `[start, end]`. -/
theorem bookingsByDateRange_spec (ledger : List Reservation)
    (startD endD : Nat) :
    (bookingsByDateRange ledger startD endD = RangeResult.validationError ↔
      endD < startD) ∧
    (∀ rs, bookingsByDateRange ledger startD endD = RangeResult.ok rs →
      ∀ r, r ∈ rs ↔ (r ∈ ledger ∧ startD ≤ r.day ∧ r.day ≤ endD)) := by
  constructor
  · unfold bookingsByDateRange
    by_cases h : endD < startD
    · simp [h]
    · simp [h]
  · intro rs hrs r
    unfold bookingsByDateRange at hrs
    by_cases h : endD < startD
    · simp [h] at hrs
    · simp [h] at hrs
      rw [← hrs]
      simp

/-- C7 witness: a concrete in-range reservation is returned. -/
theorem bookingsByDateRange_spec_witness :
    (⟨1, 1, 1, 2, 540, 660, 0⟩ : Reservation) ∈
        [(⟨1, 1, 1, 2, 540, 660, 0⟩ : Reservation)] ∧
      1 ≤ (2 : Nat) ∧ (2 : Nat) ≤ 3 :=
  ((bookingsByDateRange_spec [⟨1, 1, 1, 2, 540, 660, 0⟩] 1 3).2
    [⟨1, 1, 1, 2, 540, 660, 0⟩] (by decide) ⟨1, 1, 1, 2, 540, 660, 0⟩).mp
    (by decide)

/-- The generated slot list has one slot per whole `dur` in the window. -/
theorem generate_length (openT closeT dur : Nat) :
    (generate openT closeT dur).length = (closeT - openT) / dur := by
  simp [generate]

/-- Closed form of the `i`-th generated slot. -/
theorem generate_get (openT closeT dur i : Nat)
    (h : i < (generate openT closeT dur).length) :
    (generate openT closeT dur).get ⟨i, h⟩ =
      (openT + dur * i, openT + dur * i + dur) := by
  simp [generate]

/-- Membership in the generated slot list. -/
theorem mem_generate (openT closeT dur : Nat) (s : Nat × Nat) :
    s ∈ generate openT closeT dur ↔
      ∃ i, i < (closeT - openT) / dur ∧
        s = (openT + dur * i, openT + dur * i + dur) := by
  simp only [generate, List.mem_map, List.mem_range]
  constructor
  · rintro ⟨i, hi, hs⟩
    exact ⟨i, hi, hs.symm⟩
  · rintro ⟨i, hi, hs⟩
    exact ⟨i, hi, hs.symm⟩

/-- C5: over a valid operating window with a positive slot duration,
`generate` yields an ordered sequence of slots of duration exactly `dur`,
contiguous and non-overlapping, all inside the window, with the trailing
partial interval dropped (less than one `dur` of the window remains after
the last slot); and the 09:00–17:00 window with 2-hour slots yields
exactly 09-11, 11-13, 13-15, 15-17. -/
theorem generate_slots_spec (openT closeT dur : Nat)
    (hoc : openT < closeT) (hdur : 0 < dur) :
    (∀ i (h : i < (generate openT closeT dur).length),
      ((generate openT closeT dur).get ⟨i, h⟩).2 =
        ((generate openT closeT dur).get ⟨i, h⟩).1 + dur) ∧
    (∀ i (h : i + 1 < (generate openT closeT dur).length),
      ((generate openT closeT dur).get ⟨i + 1, h⟩).1 =
        ((generate openT closeT dur).get ⟨i, Nat.lt_of_succ_lt h⟩).2) ∧
    (∀ i j (hi : i < (generate openT closeT dur).length)
      (hj : j < (generate openT closeT dur).length), i < j →
      ((generate openT closeT dur).get ⟨i, hi⟩).2 ≤
        ((generate openT closeT dur).get ⟨j, hj⟩).1) ∧
    (∀ s ∈ generate openT closeT dur, openT ≤ s.1 ∧ s.2 ≤ closeT) ∧
    (closeT - (openT + dur * (generate openT closeT dur).length) < dur) ∧
    generate 540 1020 120 = [(540, 660), (660, 780), (780, 900), (900, 1020)] := by
  have hql : ∀ i, i < (generate openT closeT dur).length →
      dur * i + dur ≤ dur * ((closeT - openT) / dur) := by
    intro i hi
    rw [generate_length] at hi
    calc dur * i + dur = dur * (i + 1) := by ring
      _ ≤ dur * ((closeT - openT) / dur) :=
        Nat.mul_le_mul_left dur (Nat.succ_le_of_lt hi)
  have hdivle : dur * ((closeT - openT) / dur) ≤ closeT - openT :=
    Nat.mul_div_le (closeT - openT) dur
  refine ⟨?_, ?_, ?_, ?_, ?_, ?_⟩
  · intro i h
    rw [generate_get]
  · intro i h
    rw [generate_get, generate_get]
    ring
  · intro i j hi hj hij
    rw [generate_get, generate_get]
    have : dur * i + dur ≤ dur * j := by
      calc dur * i + dur = dur * (i + 1) := by ring
        _ ≤ dur * j := Nat.mul_le_mul_left dur (Nat.succ_le_of_lt hij)
    omega
  · intro s hs
    rw [mem_generate] at hs
    obtain ⟨i, hi, rfl⟩ := hs
    refine ⟨Nat.le_add_right _ _, ?_⟩
    have h1 : dur * i + dur ≤ dur * ((closeT - openT) / dur) := by
      apply hql
      rw [generate_length]
      exact hi
    calc openT + dur * i + dur = openT + (dur * i + dur) := by ring
      _ ≤ openT + (closeT - openT) := by
        refine Nat.add_le_add_left (le_trans h1 hdivle) _
      _ = closeT := Nat.add_sub_cancel' (Nat.le_of_lt hoc)
  · rw [generate_length]
    have hdm := Nat.div_add_mod (closeT - openT) dur
    have hmod : (closeT - openT) % dur < dur := Nat.mod_lt _ hdur
    omega
  · decide

/-- C5 witness: the example window of the spec. -/
theorem generate_slots_spec_witness :
    generate 540 1020 120 = [(540, 660), (660, 780), (780, 900), (900, 1020)] :=
  (generate_slots_spec 540 1020 120 (by decide) (by decide)).2.2.2.2.2

/-- Closed form of the `i`-th entry of `dailyRevenue`. -/
theorem dailyRevenue_get (ledger : List Reservation) (today w : Nat)
    (price : ℚ) (i : Nat)
    (h : i < (dailyRevenue ledger today w price).length) :
    (dailyRevenue ledger today w price).get ⟨i, h⟩ =
      (today + 1 + i - w,
       (ledger.filter (fun r => decide (r.day = today + 1 + i - w))).length,
       (((ledger.filter (fun r => decide (r.day = today + 1 + i - w))).length
         : ℚ) * price)) := by
  simp [dailyRevenue]

/-- C6: `dailyRevenue` returns one entry per calendar day of the trailing
window, in chronological order, each carrying that day with its reservation count
and `count * price`; a day with zero reservations still appears, with
revenue 0; and over a history with reservations only on days 1 and 3 of a
7-day window it returns exactly 7 entries with days 2, 4, 5, 6, 7 at
revenue 0. -/
theorem dailyRevenue_spec (ledger : List Reservation) (today w : Nat)
    (price : ℚ) (hw : w ≤ today + 1) :
    (dailyRevenue ledger today w price).length = w ∧
    (∀ i (h : i < (dailyRevenue ledger today w price).length),
      ((dailyRevenue ledger today w price).get ⟨i, h⟩).1 = today + 1 + i - w) ∧
    (∀ i j (hi : i < (dailyRevenue ledger today w price).length)
      (hj : j < (dailyRevenue ledger today w price).length), i < j →
      ((dailyRevenue ledger today w price).get ⟨i, hi⟩).1 <
        ((dailyRevenue ledger today w price).get ⟨j, hj⟩).1) ∧
    (∀ i (h : i < (dailyRevenue ledger today w price).length),
      (ledger.filter (fun r => decide (r.day = today + 1 + i - w))).length = 0 →
      (dailyRevenue ledger today w price).get ⟨i, h⟩ =
        (today + 1 + i - w, 0, 0)) ∧
    dailyRevenue
        [⟨1, 1, 1, 1, 540, 660, 0⟩, ⟨2, 1, 1, 3, 540, 660, 0⟩] 7 7 50 =
      [(1, 1, 50), (2, 0, 0), (3, 1, 50), (4, 0, 0), (5, 0, 0), (6, 0, 0),
       (7, 0, 0)] := by
  have hlen : (dailyRevenue ledger today w price).length = w := by
    simp [dailyRevenue]
  refine ⟨hlen, ?_, ?_, ?_, ?_⟩
  · intro i h
    rw [dailyRevenue_get]
  · intro i j hi hj hij
    rw [dailyRevenue_get, dailyRevenue_get]
    have hjw : j < w := by rw [hlen] at hj; exact hj
    omega
  · intro i h h0
    rw [dailyRevenue_get, h0]
    norm_num
  · norm_num [dailyRevenue, List.range_succ]

/-- C6 witness: the 7-day example of the spec. -/
theorem dailyRevenue_spec_witness :
    dailyRevenue
        [⟨1, 1, 1, 1, 540, 660, 0⟩, ⟨2, 1, 1, 3, 540, 660, 0⟩] 7 7 50 =
      [(1, 1, 50), (2, 0, 0), (3, 1, 50), (4, 0, 0), (5, 0, 0), (6, 0, 0),
       (7, 0, 0)] :=
  (dailyRevenue_spec [] 7 7 50 (by decide)).2.2.2.2

/-- What a successful commit guarantees: the shape of the returned reservation,
the day check, the slot-alignment check, and no overlap with any existing
reservation for the same car and day. -/
theorem commit_ok_sound (cfg : SlotConfig) (today : Nat)
    (ledger : List Reservation) (req : CommitReq) (r : Reservation)
    (h : commit cfg today ledger req = CommitResult.ok r) :
    r = ⟨req.nextId, req.car_id, req.user_id, req.day, req.start_time,
         req.start_time + cfg.dur, req.createdAt⟩ ∧
    today ≤ req.day ∧
    (req.start_time, req.start_time + cfg.dur) ∈
      generate cfg.openT cfg.closeT cfg.dur ∧
    ∀ r2 ∈ ledger, r2.car_id = req.car_id → r2.day = req.day →
      ¬(r2.start_time < req.start_time + cfg.dur ∧
        req.start_time < r2.end_time) := by
  unfold commit at h
  split at h
  · simp at h
  rename_i h1
  split at h
  · simp at h
  rename_i h2
  split at h
  · simp at h
  rename_i h3
  injection h with hr
  refine ⟨hr.symm, Nat.le_of_not_lt h1, not_not.mp h2, ?_⟩
  intro r2 hr2 hcar hday hov
  apply h3
  rw [List.any_eq_true]
  refine ⟨r2, (mem_reservationsFor ledger req.car_id req.day r2).mpr
    ⟨hr2, hcar, hday⟩, ?_⟩
  unfold intervalsOverlap
  simp only [Bool.and_eq_true, decide_eq_true_eq]
  exact ⟨hov.2, hov.1⟩

/-- The Ledger after a successful commit is the old Ledger with the new
reservation appended. -/
theorem applyCommit_ok (cfg : SlotConfig) (today : Nat)
    (ledger : List Reservation) (req : CommitReq) (r : Reservation)
    (h : commit cfg today ledger req = CommitResult.ok r) :
    applyCommit cfg today ledger req = ledger ++ [r] := by
  unfold applyCommit
  rw [h]

/-- One commit attempt preserves the no-overlap invariant. -/
theorem applyCommit_no_overlap (cfg : SlotConfig) (today : Nat)
    (ledger : List Reservation) (req : CommitReq) (h : NoOverlap ledger) :
    NoOverlap (applyCommit cfg today ledger req) := by
  unfold applyCommit
  cases hc : commit cfg today ledger req with
  | conflictError => exact h
  | validationError => exact h
  | ok r =>
    obtain ⟨hr, -, -, hcomp⟩ := commit_ok_sound cfg today ledger req r hc
    unfold NoOverlap
    rw [List.pairwise_append]
    refine ⟨h, List.pairwise_singleton _ _, ?_⟩
    intro a ha b hb
    rw [List.mem_singleton] at hb
    subst hb
    subst hr
    intro hcar hday hov
    exact hcomp a ha (by simpa using hcar) (by simpa using hday)
      ⟨by simpa using hov.1, by simpa using hov.2⟩

/-- Any sequence of commit attempts preserves the no-overlap invariant. -/
theorem runCommits_no_overlap (cfg : SlotConfig) (today : Nat)
    (reqs : List CommitReq) :
    ∀ ledger, NoOverlap ledger →
      NoOverlap (runCommits cfg today ledger reqs) := by
  induction reqs with
  | nil => intro l h; exact h
  | cons req rest ih =>
    intro l h
    exact ih (applyCommit cfg today l req)
      (applyCommit_no_overlap cfg today l req h)

/-- C1: starting from a Ledger satisfying the no-overlap invariant, the
invariant still holds after any sequence of commit attempts (concurrent
attempts are serialized per key by the atomic committer check-then-
append, so every concurrent execution is equivalent to such a sequence);
moreover of two overlapping requests for the same car and day, the second
can never also succeed after the first one succeeded. -/
theorem ledger_no_overlap_invariant (cfg : SlotConfig) (today : Nat)
    (ledger : List Reservation) (reqs : List CommitReq)
    (h : NoOverlap ledger) :
    NoOverlap (runCommits cfg today ledger reqs) ∧
    (∀ req1 req2 r1 r2,
      commit cfg today ledger req1 = CommitResult.ok r1 →
      req2.car_id = req1.car_id → req2.day = req1.day →
      req1.start_time < req2.start_time + cfg.dur →
      req2.start_time < req1.start_time + cfg.dur →
      commit cfg today (applyCommit cfg today ledger req1) req2 ≠
        CommitResult.ok r2) := by
  refine ⟨runCommits_no_overlap cfg today reqs ledger h, ?_⟩
  intro req1 req2 r1 r2 hok1 hcar hday ho1 ho2 hok2
  obtain ⟨hr1, -, -, -⟩ := commit_ok_sound cfg today ledger req1 r1 hok1
  obtain ⟨-, -, -, hcomp2⟩ :=
    commit_ok_sound cfg today (applyCommit cfg today ledger req1) req2 r2 hok2
  have hmem : r1 ∈ applyCommit cfg today ledger req1 := by
    rw [applyCommit_ok cfg today ledger req1 r1 hok1]
    simp
  apply hcomp2 r1 hmem
  · rw [hr1]
    exact hcar.symm
  · rw [hr1]
    exact hday.symm
  · subst hr1
    exact ⟨by simpa using ho1, by simpa using ho2⟩

/-- C1 witness: the empty Ledger satisfies the invariant, and it is kept
over a sequence containing two identical overlapping requests. -/
theorem ledger_no_overlap_invariant_witness :
    NoOverlap (runCommits ⟨540, 1020, 120⟩ 5 []
      [⟨1, 2, 5, 540, 1, 0⟩, ⟨1, 3, 5, 540, 2, 0⟩]) :=
  (ledger_no_overlap_invariant ⟨540, 1020, 120⟩ 5 []
    [⟨1, 2, 5, 540, 1, 0⟩, ⟨1, 3, 5, 540, 2, 0⟩] List.Pairwise.nil).1

/-- Membership in the answer of the Availability Resolver. -/
theorem mem_availableSlots (cfg : SlotConfig) (ledger : List Reservation)
    (carId day : Nat) (s : Nat × Nat) :
    s ∈ availableSlots cfg ledger carId day ↔
      s ∈ generate cfg.openT cfg.closeT cfg.dur ∧
      ∀ r ∈ reservationsFor ledger carId day,
        intervalsOverlap s (r.start_time, r.end_time) = false := by
  unfold availableSlots
  rw [List.mem_filter]
  simp

/-- The end of a generated slot is its start plus the duration. -/
theorem mem_generate_snd (openT closeT dur : Nat) (s : Nat × Nat)
    (h : s ∈ generate openT closeT dur) : s.2 = s.1 + dur := by
  rw [mem_generate] at h
  obtain ⟨i, -, rfl⟩ := h
  rfl

/-- C2: a slot returned by `availableSlots` can be committed (the commit
succeeds), and the committed reservation is immediately visible: the same
slot is no longer in `availableSlots` over the updated Ledger. -/
theorem available_slot_commit_roundtrip (cfg : SlotConfig) (today : Nat)
    (ledger : List Reservation) (carId userId day nid cat : Nat)
    (s : Nat × Nat) (hdur : 0 < cfg.dur) (hday : today ≤ day)
    (hs : s ∈ availableSlots cfg ledger carId day) :
    commit cfg today ledger ⟨carId, userId, day, s.1, nid, cat⟩ =
      CommitResult.ok ⟨nid, carId, userId, day, s.1, s.1 + cfg.dur, cat⟩ ∧
    s ∉ availableSlots cfg
      (applyCommit cfg today ledger ⟨carId, userId, day, s.1, nid, cat⟩)
      carId day := by
  rw [mem_availableSlots] at hs
  obtain ⟨hgen, hfree⟩ := hs
  have hsnd : s.2 = s.1 + cfg.dur := mem_generate_snd _ _ _ _ hgen
  have hpair : (s.1, s.1 + cfg.dur) = s := by
    rw [← hsnd]
  have hok : commit cfg today ledger ⟨carId, userId, day, s.1, nid, cat⟩ =
      CommitResult.ok ⟨nid, carId, userId, day, s.1, s.1 + cfg.dur, cat⟩ := by
    unfold commit
    rw [if_neg (by simpa using Nat.not_lt.mpr hday)]
    rw [if_neg (by simp only [hpair]; exact not_not_intro hgen)]
    rw [if_neg ?_]
    simp only [Bool.not_eq_true, List.any_eq_false]
    intro r hr
    have := hfree r (by simpa using hr)
    simpa [hpair] using this
  refine ⟨hok, ?_⟩
  rw [applyCommit_ok cfg today ledger _ _ hok]
  rw [mem_availableSlots]
  intro hcontra
  obtain ⟨-, hall⟩ := hcontra
  have hmemnew : (⟨nid, carId, userId, day, s.1, s.1 + cfg.dur, cat⟩ :
      Reservation) ∈ reservationsFor
        (ledger ++ [⟨nid, carId, userId, day, s.1, s.1 + cfg.dur, cat⟩])
        carId day := by
    rw [mem_reservationsFor]
    simp
  have := hall _ hmemnew
  unfold intervalsOverlap at this
  simp only [Bool.and_eq_false_iff, decide_eq_false_iff_not, not_lt] at this
  rcases this with h1 | h2
  · omega
  · omega

/-- C2 witness: the first free 09-11 slot on an empty Ledger. -/
theorem available_slot_commit_roundtrip_witness :
    commit ⟨540, 1020, 120⟩ 5 [] ⟨1, 2, 5, 540, 7, 0⟩ =
      CommitResult.ok ⟨7, 1, 2, 5, 540, 660, 0⟩ ∧
    (540, 660) ∉ availableSlots ⟨540, 1020, 120⟩
      (applyCommit ⟨540, 1020, 120⟩ 5 [] ⟨1, 2, 5, 540, 7, 0⟩) 1 5 :=
  available_slot_commit_roundtrip ⟨540, 1020, 120⟩ 5 [] 1 2 5 7 0 (540, 660)
    (by decide) (by decide) (by decide)

/-- The mount effect establishes the admin invariant: `isAdmin` is only
set when the stored token decodes with `is_admin` exactly `true`. -/
theorem loadEffect_admin_inv (tok0 : Option String) :
    (loadEffect (initState tok0)).isAdmin = true →
      (loadEffect (initState tok0)).isLoggedIn = true ∧
      ∃ t, (loadEffect (initState tok0)).token = some t ∧
        decodedIsAdmin t = true := by
  cases tok0 with
  | none =>
    intro ha
    exact absurd ha (by decide)
  | some t =>
    by_cases ht : t = ""
    · subst ht
      intro ha
      exact absurd ha (by decide)
    · have hstate : loadEffect (initState (some t)) =
          ⟨true, false, View.dashboard, decodedIsAdmin t, some t⟩ := by
        simp [loadEffect, initState, ht]
      rw [hstate]
      intro ha
      exact ⟨rfl, t, rfl, ha⟩

/-- Every `Home` event preserves the admin invariant. -/
theorem step_admin_inv (s1 s2 : HomeState) (hs : Step s1 s2)
    (h : s1.isAdmin = true → s1.isLoggedIn = true ∧
      ∃ t, s1.token = some t ∧ decodedIsAdmin t = true) :
    s2.isAdmin = true → s2.isLoggedIn = true ∧
      ∃ t, s2.token = some t ∧ decodedIsAdmin t = true := by
  cases hs with
  | login t hlog =>
    intro ha
    have ha2 : (if t = "" then s1.isAdmin else decodedIsAdmin t) = true := ha
    by_cases ht : t = ""
    · rw [if_pos ht] at ha2
      have hlogged := (h ha2).1
      rw [hlog] at hlogged
      exact absurd hlogged (by decide)
    · rw [if_neg ht] at ha2
      exact ⟨rfl, t, rfl, ha2⟩
  | register t hlog =>
    intro ha
    have ha2 : s1.isAdmin = true := ha
    have hlogged := (h ha2).1
    rw [hlog] at hlogged
    exact absurd hlogged (by decide)
  | logout =>
    intro ha
    exact absurd ha (by decide)
  | navBooking hd =>
    intro ha
    exact h ha
  | navAdmin hd hadm =>
    intro ha
    exact h ha
  | backToDashboard =>
    intro ha
    exact h ha

/-- Every reachable `Home` state satisfies the admin invariant. -/
theorem reachable_admin_inv (tok0 : Option String) (s : HomeState)
    (hr : Reachable tok0 s) :
    s.isAdmin = true → s.isLoggedIn = true ∧
      ∃ t, s.token = some t ∧ decodedIsAdmin t = true := by
  unfold Reachable at hr
  induction hr with
  | refl => exact loadEffect_admin_inv tok0
  | tail hab hbc ih => exact step_admin_inv _ _ hbc ih

/-- C8: in every reachable state of the `Home` boundary component, the
admin dashboard (and with it the analytics fetches it performs on mount)
is rendered only when the stored authentication token decodes with
`is_admin` exactly `true`; a logged-in session without such a token never
reaches the admin view. -/
theorem admin_view_requires_admin_token (tok0 : Option String)
    (s : HomeState) (hr : Reachable tok0 s)
    (hv : render s = Rendered.adminView) :
    s.isLoggedIn = true ∧ ∃ t, s.token = some t ∧ decodedIsAdmin t = true := by
  apply reachable_admin_inv tok0 s hr
  unfold render at hv
  by_cases hl : s.isLoggedIn = true
  · rw [if_pos hl] at hv
    cases hcv : s.currentView with
    | booking =>
      rw [hcv] at hv
      simp at hv
    | dashboard =>
      rw [hcv] at hv
      simp at hv
    | admin =>
      rw [hcv] at hv
      by_cases hadm : s.isAdmin = true
      · exact hadm
      · rw [if_neg hadm] at hv
        simp at hv
  · rw [if_neg hl] at hv
    simp at hv

/-- C8 witness: a session whose stored token carries `is_admin: true`
reaches the admin view, and the theorem recovers that token. -/
theorem admin_view_requires_admin_token_witness :
    (⟨true, false, View.admin, true,
      some ("e30.eyJpc19hZG1pbiI6dHJ1ZX0")⟩ : HomeState).isLoggedIn = true ∧
    ∃ t, (⟨true, false, View.admin, true,
      some ("e30.eyJpc19hZG1pbiI6dHJ1ZX0")⟩ : HomeState).token = some t ∧
      decodedIsAdmin t = true := by
  apply admin_view_requires_admin_token (some ("e30.eyJpc19hZG1pbiI6dHJ1ZX0"))
  · exact Relation.ReflTransGen.single (Step.navAdmin _ rfl rfl)
  · rfl

end CarCheck
